import Mathlib

/-!
Verification development for the yt-to-rss ingestion pipeline.

The repository ships the React frontend (episode list, playlist sources,
add-videos modal, API client) together with a README describing the backend
(FastAPI + Celery).  The backend task/service/model code itself is not part of
the checked-in sources, so the episode state machine, retry endpoint, worker
retry policy, refresh scheduler and collection removal are modelled here from
the specification; the frontend computations (episode sorting, URL-list
parsing) are translated directly from the JSX sources.
-/

namespace YtToRss

/-- Lifecycle states of an episode: pending → downloading → ready | failed. -/
inductive Status
  | pending
  | downloading
  | ready
  | failed
deriving DecidableEq, Repr

/-- Modelled from the spec: the Episode record of the backend data model
(backend app/models.py is absent from the sources; spec section 3 describes
its fields).  Timestamps and descriptive fields not needed by the claims are
omitted. -/
structure Episode where
  id : String
  source_id : String
  media_path : String
  error_message : String
  duration_seconds : Nat
  file_size : Nat
  status : Status
deriving DecidableEq, Repr

/-- Invariant of spec section 3: media_path is non-empty iff status is ready,
and error_message is non-empty iff status is failed. -/
def epInv (e : Episode) : Prop :=
  (e.media_path ≠ "" ↔ e.status = .ready) ∧
  (e.error_message ≠ "" ↔ e.status = .failed)

instance (e : Episode) : Decidable (epInv e) := by
  unfold epInv
  infer_instance

/-- Modelled from the spec: episode creation — pending status, empty media
path and error message (spec sections 3 and 4.1). -/
def newEpisode (id source_id : String) : Episode :=
  { id := id
    source_id := source_id
    media_path := ""
    error_message := ""
    duration_seconds := 0
    file_size := 0
    status := .pending }

/-- Transitions of the episode state machine (spec section 4.1). -/
inductive Transition
  | claim
  | complete (path : String) (dur size : Nat)
  | fail (msg : String)
  | retry
deriving DecidableEq, Repr

/-- Modelled from the spec: the guarded transition function of the episode
state machine (spec section 4.1, backend worker code absent from the
sources).  Returns none when the guard rejects the transition:
claim needs pending; complete needs downloading, a normalized media file and
a non-zero duration; fail needs downloading and a user-safe summary message;
retry needs failed and clears the error message. -/
def step (e : Episode) : Transition → Option Episode
  | .claim =>
      if e.status = .pending then
        some { e with status := .downloading }
      else none
  | .complete path dur size =>
      if e.status = .downloading ∧ path ≠ "" ∧ dur ≠ 0 then
        some { e with status := .ready, media_path := path,
                      duration_seconds := dur, file_size := size }
      else none
  | .fail msg =>
      if e.status = .downloading ∧ msg ≠ "" then
        some { e with status := .failed, error_message := msg }
      else none
  | .retry =>
      if e.status = .failed then
        some { e with status := .pending, error_message := "" }
      else none

/-- C1: the episode invariant — media_path non-empty iff status is ready and
error_message non-empty iff status is failed — holds for a freshly created
episode and is preserved by every transition of the episode state machine. -/
theorem episode_invariant (i s : String) (e e' : Episode) (t : Transition)
    (hInv : epInv e) (hStep : step e t = some e') :
    epInv (newEpisode i s) ∧ epInv e' := by
  constructor
  · constructor <;> simp [newEpisode]
  · obtain ⟨h1, h2⟩ := hInv
    cases t with
    | claim =>
        rw [step] at hStep
        split at hStep
        · next hc =>
            cases hStep
            have hm : e.media_path = "" := by
              by_contra hne
              exact absurd (hc ▸ h1.mp hne) (by simp)
            have he : e.error_message = "" := by
              by_contra hne
              exact absurd (hc ▸ h2.mp hne) (by simp)
            constructor <;> simp [hm, he]
        · exact absurd hStep (by simp)
    | complete path dur size =>
        rw [step] at hStep
        split at hStep
        · next hc =>
            obtain ⟨hst, hpath, _⟩ := hc
            cases hStep
            have he : e.error_message = "" := by
              by_contra hne
              exact absurd (hst ▸ h2.mp hne) (by simp)
            constructor <;> simp [hpath, he]
        · exact absurd hStep (by simp)
    | fail msg =>
        rw [step] at hStep
        split at hStep
        · next hc =>
            obtain ⟨hst, hmsg⟩ := hc
            cases hStep
            have hm : e.media_path = "" := by
              by_contra hne
              exact absurd (hst ▸ h1.mp hne) (by simp)
            constructor <;> simp [hm, hmsg]
        · exact absurd hStep (by simp)
    | retry =>
        rw [step] at hStep
        split at hStep
        · next hc =>
            cases hStep
            have hm : e.media_path = "" := by
              by_contra hne
              exact absurd (hc ▸ h1.mp hne) (by simp)
            constructor <;> simp [hm]
        · exact absurd hStep (by simp)

/-- Witness for C1: the invariant at a concrete fresh episode and the concrete
claim transition applied to it. -/
theorem episode_invariant_witness :
    epInv (newEpisode "e1" "v1") ∧
    epInv { newEpisode "e1" "v1" with status := Status.downloading } :=
  episode_invariant "e1" "v1" (newEpisode "e1" "v1")
    { newEpisode "e1" "v1" with status := Status.downloading }
    Transition.claim (by decide) (by decide)

/-- Job kinds dispatched to the worker pool (spec section 3). -/
inductive JobKind
  | ingestItem
  | ingestCollection
  | convertUpload
  | refreshCollection
deriving DecidableEq, Repr

/-- Queue job: a kind, a payload identifying the target episode or collection,
and a retry count (spec section 3). -/
structure Job where
  kind : JobKind
  payload : String
  retry_count : Nat
deriving DecidableEq, Repr

/-- System state visible to the retry endpoint: the feed episodes and the job
queue. -/
structure SysState where
  episodes : List Episode
  queue : List Job
deriving DecidableEq, Repr

/-- Errors the retry endpoint surfaces to the caller (spec section 7). -/
inductive RetryError
  | invalidState
  | notFound
deriving DecidableEq, Repr

/-- Boolean test for an ingest_item job targeting the given episode id. -/
def isIngestFor (epId : String) (j : Job) : Bool :=
  j.kind == JobKind.ingestItem && j.payload == epId

/-- Modelled from the spec: the retry endpoint (backend retry route absent
from the sources; spec sections 4.1 and 6).  Fails with InvalidStateError
unless the episode is currently failed; otherwise clears error_message,
moves the episode back to pending and enqueues exactly one fresh ingest_item
job for it. -/
def retryEpisode (s : SysState) (epId : String) : Except RetryError SysState :=
  match s.episodes.find? (fun e => e.id == epId) with
  | none => .error .notFound
  | some e =>
      if e.status = .failed then
        .ok { episodes := s.episodes.map (fun x =>
                if x.id == epId then
                  { x with status := .pending, error_message := "" }
                else x)
              queue := s.queue ++ [{ kind := .ingestItem, payload := epId, retry_count := 0 }] }
      else .error .invalidState

/-- C2: for an episode present in the state, retry on a failed episode
succeeds, leaves it pending with error_message cleared, leaves every other
episode untouched, and appends exactly one new ingest_item job for it; retry
on a non-failed episode fails with InvalidStateError. -/
theorem retry_spec (s : SysState) (epId : String) (e : Episode)
    (hfind : s.episodes.find? (fun x => x.id == epId) = some e) :
    (e.status = .failed →
      ∃ s', retryEpisode s epId = .ok s' ∧
        (∀ x ∈ s'.episodes, x.id = epId →
           x.status = .pending ∧ x.error_message = "") ∧
        (∀ x ∈ s.episodes, x.id ≠ epId → x ∈ s'.episodes) ∧
        ((s'.queue.filter (isIngestFor epId)).length
           = (s.queue.filter (isIngestFor epId)).length + 1)) ∧
    (e.status ≠ .failed → retryEpisode s epId = .error .invalidState) := by
  constructor
  · intro hfail
    refine ⟨⟨s.episodes.map (fun x =>
        if x.id == epId then { x with status := .pending, error_message := "" } else x),
        s.queue ++ [{ kind := .ingestItem, payload := epId, retry_count := 0 }]⟩,
        ?_, ?_, ?_, ?_⟩
    · simp [retryEpisode, hfind, hfail]
    · intro x hx hid
      simp only [List.mem_map] at hx
      obtain ⟨y, _, hy⟩ := hx
      by_cases hc : y.id == epId
      · rw [if_pos hc] at hy
        cases hy
        exact ⟨rfl, rfl⟩
      · rw [if_neg hc] at hy
        cases hy
        exact absurd (beq_iff_eq.mpr hid) hc
    · intro x hx hid
      simp only [List.mem_map]
      refine ⟨x, hx, ?_⟩
      rw [if_neg (by simpa using hid)]
    · simp [List.filter_append, isIngestFor]
  · intro hnf
    simp [retryEpisode, hfind, hnf]

/-- Witness for C2 at a concrete two-episode state with a failed episode. -/
theorem retry_spec_witness :
    let bad : Episode :=
      { newEpisode "e2" "v2" with status := Status.failed,
                                  error_message := "download failed" }
    let s : SysState := { episodes := [newEpisode "e1" "v1", bad], queue := [] }
    ∃ s', retryEpisode s "e2" = .ok s' ∧
      (∀ x ∈ s'.episodes, x.id = "e2" →
         x.status = .pending ∧ x.error_message = "") ∧
      (∀ x ∈ s.episodes, x.id ≠ "e2" → x ∈ s'.episodes) ∧
      ((s'.queue.filter (isIngestFor "e2")).length
         = (s.queue.filter (isIngestFor "e2")).length + 1) := by
  intro bad s
  exact (retry_spec s "e2" bad (by decide)).1 rfl

/-- Shorthand for an episode that has finished ingestion. -/
def readyEpisode (id sid path : String) : Episode :=
  { newEpisode id sid with status := .ready, media_path := path }

/-- Error taxonomy of spec section 7. -/
inductive ErrKind
  | transientNetworkError
  | rateLimited
  | notFound
  | contentUnavailable
  | unsupported
  | validationError
deriving DecidableEq, Repr

/-- Transient errors are eligible for job-level retry; all others are
permanent (spec sections 4.5 and 7). -/
def ErrKind.isTransient : ErrKind → Bool
  | .transientNetworkError => true
  | .rateLimited => true
  | _ => false

/-- User-safe summary message recorded on the episode for each error kind
(spec section 4.1: a user-safe summary is persisted on failure). -/
def ErrKind.message : ErrKind → String
  | .transientNetworkError => "temporary network problem"
  | .rateLimited => "rate limited by the provider"
  | .notFound => "reference not found"
  | .contentUnavailable => "content is no longer available"
  | .unsupported => "unsupported reference"
  | .validationError => "file is not a valid audio stream"

/-- Result of the Media Normalizer (spec section 4.4). -/
structure NormResult where
  media_path : String
  duration_seconds : Nat
  file_size : Nat
deriving DecidableEq, Repr

/-- Outcomes of the external calls one ingest_item execution performs: the
Metadata Resolver, the Media Fetcher and the Media Normalizer (spec sections
4.2 to 4.4).  Modelling the collaborators as fixed outcomes keeps the worker
logic deterministic. -/
structure IngestEnv where
  resolve : Except ErrKind Unit
  fetch : Except ErrKind String
  normalize : Except ErrKind NormResult

/-- Modelled from the spec: the body of one ingest_item execution on an
episode already claimed as downloading (spec sections 4.1 to 4.4, backend
task code absent from the sources).  Resolves, fetches and normalizes in
order, propagating the first typed error; on success persists media_path,
duration and size atomically with the ready status and reports the media
file written. -/
def pipeline (env : IngestEnv) (e : Episode) : Except ErrKind (Episode × List String) :=
  match env.resolve with
  | .error k => .error k
  | .ok _ =>
      match env.fetch with
      | .error k => .error k
      | .ok _ =>
          match env.normalize with
          | .error k => .error k
          | .ok r =>
              if r.media_path ≠ "" ∧ r.duration_seconds ≠ 0 then
                .ok ({ e with status := .ready, media_path := r.media_path,
                              duration_seconds := r.duration_seconds,
                              file_size := r.file_size }, [r.media_path])
              else .error .validationError

/-- Outcome of one worker execution of a job: either the job is done (the
episode carries the persisted effect, together with the list of media files
written), or the job is re-enqueued with an incremented retry count. -/
inductive JobOutcome
  | done (e : Episode) (files : List String)
  | requeue (j : Job) (e : Episode)
deriving DecidableEq, Repr

/-- Modelled from the spec: the worker wrapper for an ingest_item job (spec
sections 4.1, 4.5 and 7, backend worker code absent from the sources).  An
already-ready episode is a safe no-op.  Otherwise the episode is claimed as
downloading and the pipeline runs; a transient error below the maximum
attempt count re-enqueues the job with retry_count incremented, while a
permanent error — or an exhausted attempt budget — marks the episode failed
with the user-safe message. -/
def workerRun (maxAttempts : Nat) (env : IngestEnv) (j : Job) (e : Episode) : JobOutcome :=
  if e.status = .ready then
    .done e []
  else
    let e1 := { e with status := Status.downloading }
    match pipeline env e1 with
    | .ok (e2, files) => .done e2 files
    | .error k =>
        if k.isTransient ∧ j.retry_count + 1 < maxAttempts then
          .requeue { j with retry_count := j.retry_count + 1 } e1
        else
          .done { e1 with status := .failed, error_message := k.message } []

/-- C3: running the ingest_item job handler on an already-ready episode is a
no-op — the episode is returned unchanged and no media file is written. -/
theorem ingest_idempotent_on_ready (maxAttempts : Nat) (env : IngestEnv)
    (j : Job) (e : Episode) (h : e.status = .ready) :
    workerRun maxAttempts env j e = .done e [] := by
  rw [workerRun, if_pos h]

/-- Witness for C3: a concrete ready episode is untouched by a second run
even though the environment would deliver fresh media. -/
theorem ingest_idempotent_witness :
    let e : Episode :=
      { newEpisode "e1" "v1" with status := Status.ready,
                                  media_path := "media/e1.mp3",
                                  duration_seconds := 90, file_size := 1000 }
    let env : IngestEnv :=
      { resolve := .ok ()
        fetch := .ok "tmp/e1.webm"
        normalize := .ok { media_path := "media/e1-copy.mp3",
                           duration_seconds := 90, file_size := 1000 } }
    workerRun 3 env { kind := .ingestItem, payload := "e1", retry_count := 0 } e
      = .done e [] := by
  intro e env
  exact ingest_idempotent_on_ready 3 env _ e rfl

/-- C7: on a pipeline error, a permanent error kind marks the episode failed
with a non-empty error message in this single attempt and never re-enqueues
the job; a transient error kind below the maximum attempt count re-enqueues
the job with retry_count incremented and writes no file; a transient error
kind at the attempt budget converts into a permanent failure against the
episode. -/
theorem worker_retry_policy (maxAttempts : Nat) (env : IngestEnv) (j : Job)
    (e : Episode) (k : ErrKind) (hready : e.status ≠ .ready)
    (herr : pipeline env { e with status := Status.downloading } = .error k) :
    (k.isTransient = false →
       workerRun maxAttempts env j e
         = .done { e with status := .failed, error_message := k.message } [] ∧
       k.message ≠ "") ∧
    (k.isTransient = true → j.retry_count + 1 < maxAttempts →
       workerRun maxAttempts env j e
         = .requeue { j with retry_count := j.retry_count + 1 }
             { e with status := Status.downloading }) ∧
    (k.isTransient = true → ¬ j.retry_count + 1 < maxAttempts →
       workerRun maxAttempts env j e
         = .done { e with status := .failed, error_message := k.message } []) := by
  refine ⟨?_, ?_, ?_⟩
  · intro htrans
    constructor
    · rw [workerRun, if_neg hready]
      simp only [herr]
      rw [if_neg (by simp [htrans])]
    · cases k <;> simp_all [ErrKind.isTransient, ErrKind.message]
  · intro htrans hcnt
    rw [workerRun, if_neg hready]
    simp only [herr]
    rw [if_pos ⟨htrans, hcnt⟩]
  · intro htrans hcnt
    rw [workerRun, if_neg hready]
    simp only [herr]
    rw [if_neg (by simp [hcnt])]

/-- Witness for C7: a concrete content-unavailable resolution marks the
episode failed with a non-empty message and produces no requeue. -/
theorem worker_retry_policy_witness :
    let env : IngestEnv :=
      { resolve := .error .contentUnavailable
        fetch := .ok "tmp/e1.webm"
        normalize := .error .validationError }
    let e := newEpisode "e1" "v1"
    workerRun 3 env { kind := .ingestItem, payload := "e1", retry_count := 0 } e
      = .done { e with status := .failed,
                       error_message := ErrKind.contentUnavailable.message } [] ∧
    ErrKind.contentUnavailable.message ≠ "" := by
  intro env e
  exact (worker_retry_policy 3 env _ e ErrKind.contentUnavailable
    (by decide) rfl).1 rfl

/-- Modelled from the spec: the CollectionSource record of the backend data
model (spec section 3; backend app/models.py absent from the sources).
Timestamps are epoch seconds. -/
structure CollectionSource where
  collection_id : String
  last_refreshed_at : Option Int
  refresh_interval_override : Option Nat
  enabled : Bool
deriving DecidableEq, Repr

/-- Modelled from the spec: the Refresh Scheduler due test (spec section 4.6;
backend tasks code absent from the sources).  A collection is selected when
it is enabled and either never refreshed, or at least the effective interval
(override if present, else the global default) has elapsed since the last
refresh. -/
def isDue (globalDefault : Nat) (now : Int) (c : CollectionSource) : Bool :=
  c.enabled &&
    match c.last_refreshed_at with
    | none => true
    | some t => decide (((c.refresh_interval_override.getD globalDefault : Nat) : Int) ≤ now - t)

/-- C4: an enabled collection is selected as due exactly when it was never
refreshed or the elapsed time meets the effective interval — the override
when present, else the global default. -/
theorem scheduler_due_spec (g : Nat) (now : Int) (c : CollectionSource)
    (h : c.enabled = true) :
    isDue g now c = true ↔
      (c.last_refreshed_at = none ∨
       ∃ t, c.last_refreshed_at = some t ∧
         ((c.refresh_interval_override.getD g : Nat) : Int) ≤ now - t) := by
  rw [isDue, h, Bool.true_and]
  cases hl : c.last_refreshed_at with
  | none => simp
  | some t =>
      simp only [decide_eq_true_eq]
      constructor
      · intro hle
        exact Or.inr ⟨t, rfl, hle⟩
      · rintro (hnone | ⟨u, hu, hle⟩)
        · exact absurd hnone (by simp)
        · cases hu
          exact hle

/-- Witness for C4: a collection last refreshed 1800 seconds ago with a null
override is due under a 1800-second global default and not due under a
3600-second one. -/
theorem scheduler_due_witness :
    let c : CollectionSource :=
      { collection_id := "PL1", last_refreshed_at := some 98200,
        refresh_interval_override := none, enabled := true }
    isDue 1800 100000 c = true ∧ isDue 3600 100000 c = false := by
  intro c
  constructor
  · exact (scheduler_due_spec 1800 100000 c rfl).mpr
      (Or.inr ⟨98200, rfl, by decide⟩)
  · decide

/-- Jobs enqueued by one refresh pass, together with the updated collection
record. -/
structure RefreshResult where
  enqueued : List Job
  source : CollectionSource
deriving DecidableEq, Repr

/-- Modelled from the spec: one refresh_collection job execution (spec
section 4.6; backend tasks code absent from the sources).  The collection is
re-resolved; ingest_item jobs are enqueued only for resolved members with no
existing episode carrying that source item id, capped at the configured
per-refresh maximum; last_refreshed_at is updated unconditionally, also when
resolution fails. -/
def refreshCollection (maxNew : Nat) (now : Int) (c : CollectionSource)
    (episodes : List Episode) (resolved : Except ErrKind (List String)) :
    RefreshResult :=
  let c' := { c with last_refreshed_at := some now }
  match resolved with
  | .error _ => { enqueued := [], source := c' }
  | .ok members =>
      let fresh := members.filter (fun m => episodes.all (fun e => !(e.source_id == m)))
      { enqueued := (fresh.take maxNew).map
          (fun m => { kind := .ingestItem, payload := m, retry_count := 0 })
        source := c' }

/-- C5: in every refresh pass — capped or not — each job enqueued is an
ingest_item job for a resolved member with no existing episode carrying that
source item id; furthermore, when the fresh members fit under the cap, the
enqueued payloads are exactly the resolved members not yet represented by an
episode, in order. -/
theorem refresh_dedup_spec (maxNew : Nat) (now : Int) (c : CollectionSource)
    (episodes : List Episode) (members : List String) :
    (∀ j ∈ (refreshCollection maxNew now c episodes (.ok members)).enqueued,
       j.kind = .ingestItem ∧ j.payload ∈ members ∧
       ∀ e ∈ episodes, e.source_id ≠ j.payload) ∧
    ((members.filter
        (fun m => episodes.all (fun e => !(e.source_id == m)))).length ≤ maxNew →
      (refreshCollection maxNew now c episodes (.ok members)).enqueued.map Job.payload
        = members.filter (fun m => episodes.all (fun e => !(e.source_id == m)))) := by
  constructor
  · intro j hj
    simp only [refreshCollection, List.mem_map] at hj
    obtain ⟨m, hm, hjm⟩ := hj
    have hmem := List.mem_of_mem_take hm
    rw [List.mem_filter] at hmem
    obtain ⟨hmem, hall⟩ := hmem
    refine ⟨by rw [← hjm], by rw [← hjm]; exact hmem, ?_⟩
    intro e he
    rw [← hjm]
    simp only [List.all_eq_true] at hall
    have := hall e he
    simp only [Bool.not_eq_eq_eq_not, Bool.not_true, beq_eq_false_iff_ne] at this
    exact this
  · intro hcap
    simp only [refreshCollection, List.map_map, List.take_of_length_le hcap]
    rw [show (Job.payload ∘ fun m =>
        ({ kind := JobKind.ingestItem, payload := m, retry_count := 0 } : Job)) = id
      from funext fun m => rfl]
    exact List.map_id _

/-- Witness for C5: with members A, B, C already ingested and a re-resolution
returning A, B, C, D, exactly one ingest_item job is enqueued, for D. -/
theorem refresh_dedup_witness :
    let c : CollectionSource :=
      { collection_id := "PL1", last_refreshed_at := some 98200,
        refresh_interval_override := none, enabled := true }
    let eps : List Episode :=
      [readyEpisode "e1" "A" "a.mp3", readyEpisode "e2" "B" "b.mp3",
       readyEpisode "e3" "C" "c.mp3"]
    (refreshCollection 50 100000 c eps (.ok ["A", "B", "C", "D"])).enqueued.map Job.payload
      = ["D"] := by
  intro c eps
  have h := (refresh_dedup_spec 50 100000 c eps ["A", "B", "C", "D"]).2 (by decide)
  rw [h]
  decide

/-- C6: a single refresh pass never enqueues more than the configured
per-refresh maximum; and with a maximum of 50 and a diff producing 200 new
members, exactly 50 ingest_item jobs are enqueued. -/
theorem refresh_cap_spec :
    (∀ (maxNew : Nat) (now : Int) (c : CollectionSource)
       (episodes : List Episode) (resolved : Except ErrKind (List String)),
       (refreshCollection maxNew now c episodes resolved).enqueued.length ≤ maxNew) ∧
    (∀ (now : Int) (c : CollectionSource),
       (refreshCollection 50 now c []
          (.ok ((List.range 200).map toString))).enqueued.length = 50) := by
  constructor
  · intro maxNew now c episodes resolved
    cases resolved with
    | error k => simp [refreshCollection]
    | ok members =>
        simp only [refreshCollection, List.length_map, List.length_take]
        exact min_le_left _ _
  · intro now c
    simp only [refreshCollection, List.length_map, List.length_take]
    rw [List.filter_eq_self.mpr (by intro a _; rfl)]
    simp

/-- Witness for C6: the cap theorem applied at the concrete 200-member,
cap-50 refresh pass. -/
theorem refresh_cap_witness :
    (refreshCollection 50 0
       { collection_id := "PL1", last_refreshed_at := none,
         refresh_interval_override := none, enabled := true }
       [] (.ok ((List.range 200).map toString))).enqueued.length = 50 :=
  refresh_cap_spec.2 0
    { collection_id := "PL1", last_refreshed_at := none,
      refresh_interval_override := none, enabled := true }

/-- State a feed exposes to collection removal: its episodes, the media files
they own, and the tracked collection sources. -/
structure FeedState where
  episodes : List Episode
  media_files : List String
  sources : List CollectionSource
deriving DecidableEq, Repr

/-- Modelled from the spec: remove_collection detaches tracking without
deleting episodes (spec sections 3 and 6; backend playlist-sources route
absent from the sources).  Only the CollectionSource record with the given
identifier is deleted. -/
def removeCollection (s : FeedState) (cid : String) : FeedState :=
  { s with sources := s.sources.filter (fun c => !(c.collection_id == cid)) }

/-- C8: removing a tracked collection leaves every episode and every media
file of the feed unchanged, removes every source record with the given
identifier, and keeps every other source record. -/
theorem remove_collection_frame (s : FeedState) (cid : String) :
    (removeCollection s cid).episodes = s.episodes ∧
    (removeCollection s cid).media_files = s.media_files ∧
    (∀ c ∈ (removeCollection s cid).sources, c.collection_id ≠ cid) ∧
    (∀ c ∈ s.sources, c.collection_id ≠ cid → c ∈ (removeCollection s cid).sources) := by
  refine ⟨rfl, rfl, ?_, ?_⟩
  · intro c hc
    rw [removeCollection] at hc
    simp only [List.mem_filter, Bool.not_eq_eq_eq_not, Bool.not_true,
      beq_eq_false_iff_ne] at hc
    exact hc.2
  · intro c hc hne
    rw [removeCollection]
    simp only [List.mem_filter, Bool.not_eq_eq_eq_not, Bool.not_true,
      beq_eq_false_iff_ne]
    exact ⟨hc, hne⟩

/-- Witness for C8: the frame theorem applied at a concrete feed with one
episode, one media file and two tracked collections. -/
theorem remove_collection_witness :
    let s : FeedState :=
      { episodes := [readyEpisode "e1" "A" "a.mp3"]
        media_files := ["a.mp3"]
        sources := [{ collection_id := "PL1", last_refreshed_at := none,
                      refresh_interval_override := none, enabled := true },
                    { collection_id := "PL2", last_refreshed_at := none,
                      refresh_interval_override := none, enabled := true }] }
    (removeCollection s "PL1").episodes = s.episodes ∧
    (removeCollection s "PL1").media_files = s.media_files ∧
    (∀ c ∈ (removeCollection s "PL1").sources, c.collection_id ≠ "PL1") ∧
    (∀ c ∈ s.sources, c.collection_id ≠ "PL1" →
       c ∈ (removeCollection s "PL1").sources) := by
  intro s
  exact remove_collection_frame s "PL1"

/-- Episode fields the episode-list sort reads (frontend EpisodeList.jsx).
A published_at date string is modelled by its epoch value, none for null. -/
structure EpView where
  id : String
  published_at : Option Int
deriving DecidableEq, Repr

/-- Comparator of the episode-list sort, translated from EpisodeList.jsx:
zero when both dates are null, a null date sorts after any date, and two
dates compare by date of b minus date of a (newest first). -/
def episodeCompare (a b : EpView) : Int :=
  match a.published_at, b.published_at with
  | none, none => 0
  | none, some _ => 1
  | some _, none => -1
  | some x, some y => y - x

/-- Boolean order induced by the comparator: a may precede b exactly when the
comparator value is non-positive, which is how a comparison sort consumes a
JavaScript comparator. -/
def episodeLe (a b : EpView) : Bool :=
  decide (episodeCompare a b ≤ 0)

/-- Translation of sortedEpisodes from EpisodeList.jsx: a copy of the
episodes array sorted with the comparator.  JavaScript Array sort is a
stable comparison sort, modelled by mergeSort on the list value. -/
def sortedEpisodes (episodes : List EpView) : List EpView :=
  episodes.mergeSort episodeLe

/-- Transitivity of the episode order. -/
theorem episodeLe_trans (a b c : EpView) (hab : episodeLe a b = true)
    (hbc : episodeLe b c = true) : episodeLe a c = true := by
  simp only [episodeLe, decide_eq_true_eq, episodeCompare] at hab hbc ⊢
  rcases ha : a.published_at with _ | x <;> rcases hb : b.published_at with _ | y <;>
    rcases hc : c.published_at with _ | z <;> (simp_all; try omega)

/-- Totality of the episode order. -/
theorem episodeLe_total (a b : EpView) : episodeLe a b || episodeLe b a := by
  simp only [episodeLe, episodeCompare, Bool.or_eq_true, decide_eq_true_eq]
  rcases a.published_at with _ | x <;> rcases b.published_at with _ | y <;>
    (simp; try omega)

/-- C9: the episode list renders a permutation of the input episodes — the
input list value is untouched, the sort operates on a copy — in which no
dated episode follows an undated one and the dated episodes appear with
non-increasing published_at. -/
theorem sorted_episodes_spec (l : List EpView) :
    (sortedEpisodes l).Perm l ∧
    List.Pairwise (fun a b =>
      (a.published_at = none → b.published_at = none) ∧
      (∀ x y, a.published_at = some x → b.published_at = some y → y ≤ x))
      (sortedEpisodes l) := by
  refine ⟨List.mergeSort_perm l episodeLe, ?_⟩
  have hs : (sortedEpisodes l).Pairwise (fun a b => episodeLe a b = true) :=
    List.sorted_mergeSort episodeLe_trans episodeLe_total l
  refine hs.imp ?_
  intro a b hab
  simp only [episodeLe, decide_eq_true_eq, episodeCompare] at hab
  constructor
  · intro hna
    rcases hb : b.published_at with _ | y
    · rfl
    · rw [hna, hb] at hab
      simp at hab
  · intro x y hx hy
    rw [hx, hy] at hab
    simp only [] at hab
    omega

/-- Character-level translation of the JavaScript String split method with a
single-character separator, as used on the textarea content in
AddVideosModal.handleSubmit.  Splitting the empty text yields one empty
segment, exactly as in JavaScript. -/
def splitOnChar (sep : Char) : List Char → List (List Char)
  | [] => [[]]
  | c :: cs =>
      match splitOnChar sep cs with
      | [] => if c = sep then [[], []] else [[c]]
      | r :: rs => if c = sep then [] :: r :: rs else (c :: r) :: rs

/-- Character-level translation of the JavaScript String trim method: drop
leading and trailing whitespace characters. -/
def trimChars (l : List Char) : List Char :=
  ((l.dropWhile Char.isWhitespace).reverse.dropWhile Char.isWhitespace).reverse

/-- Translation of the URL-list parsing in AddVideosModal.handleSubmit:
split the textarea content on newlines, trim each line, keep the non-empty
lines in order. -/
def parseUrlList (s : String) : List String :=
  (((splitOnChar (Char.ofNat 10) s.data).map trimChars).filter
     (fun u => u.length > 0)).map String.mk

/-- Action the add-videos submit handler takes: either set a validation
error message, or call api.addVideos once with the given list. -/
inductive SubmitAction
  | showError (msg : String)
  | callAddVideos (urls : List String)
deriving DecidableEq, Repr

/-- Translation of AddVideosModal.handleSubmit: an empty parsed URL list
sets the error message and returns without calling the API; otherwise
api.addVideos is invoked with the parsed list. -/
def handleSubmit (urls : String) : SubmitAction :=
  let urlList := parseUrlList urls
  if urlList.length = 0 then .showError "Please enter at least one URL"
  else .callAddVideos urlList

/-- C10: when no non-empty trimmed line exists the handler shows the error
and never calls api.addVideos; otherwise it calls api.addVideos exactly once
with the trimmed non-empty lines in their original order, each of which is
a non-empty trimmed line of the input. -/
theorem handle_submit_spec (s : String) :
    (parseUrlList s = [] →
       handleSubmit s = .showError "Please enter at least one URL") ∧
    (parseUrlList s ≠ [] →
       handleSubmit s = .callAddVideos (parseUrlList s) ∧
       ∀ u ∈ parseUrlList s, u.data ≠ [] ∧
         u.data ∈ (splitOnChar (Char.ofNat 10) s.data).map trimChars) := by
  constructor
  · intro h
    rw [handleSubmit]
    simp [h]
  · intro h
    refine ⟨?_, ?_⟩
    · rw [handleSubmit]
      rw [if_neg (by simpa using h)]
    · intro u hu
      rw [parseUrlList] at hu
      simp only [List.mem_map] at hu
      obtain ⟨l, hl, hul⟩ := hu
      rw [List.mem_filter] at hl
      obtain ⟨hmem, hlen⟩ := hl
      simp only [decide_eq_true_eq] at hlen
      subst hul
      refine ⟨?_, hmem⟩
      intro heq
      have hnil : l = [] := heq
      rw [hnil] at hlen
      simp at hlen

/-- Witness for C10: a whitespace-only submission shows the error; a
two-line submission with padding calls api.addVideos with the two trimmed
lines. -/
theorem handle_submit_witness :
    handleSubmit "\n  \n" = .showError "Please enter at least one URL" ∧
    handleSubmit " a\nb \n\n" = SubmitAction.callAddVideos ["a", "b"] := by
  constructor
  · exact (handle_submit_spec "\n  \n").1 (by decide)
  · have h := ((handle_submit_spec " a\nb \n\n").2 (by decide)).1
    rw [h]
    decide

end YtToRss
